import Mathlib

/-!
Shallow embedding of the Wordly realtime word-game server
(`src/lib/server/socket.ts` and `src/lib/server/word.ts`).

Modelling conventions:
* JavaScript strings are `List Char`; `toLowerCase` is `List.map Char.toLower`.
* Connection identifiers (socket ids) are opaque, so they are modelled as `Nat`;
  room codes stay `String`.
* A JavaScript `Map` (insertion ordered, `set` on an existing key keeps the
  original position) is an association list `List (κ × α)`; a `Set` of strings
  is an insertion-ordered duplicate-free `List Word`.
* `Math.random`-driven choices (`generateLetters`, the random starting index)
  are passed in as explicit oracle arguments.
* JavaScript numbers holding lives are modelled as `Int` (the code can
  decrement below zero).
* A fatal runtime dereference (`undefined.lives`) is modelled by returning
  `none` from the function that would throw.
-/

/-- A JavaScript string as a list of characters. -/
abbrev Word := List Char

/-- `word.toLowerCase()`. -/
def toLowerW (w : Word) : Word := w.map Char.toLower

/-- `w.startsWith(seq)` on character lists; `startsWithW w []` is `true`
matching JavaScript. -/
def startsWithW : Word → Word → Bool
  | _, [] => true
  | [], _ :: _ => false
  | a :: as, b :: bs => a == b && startsWithW as bs

/-- `w.includes(seq)` on character lists (substring containment). -/
def includesW : Word → Word → Bool
  | [], seq => seq.isEmpty
  | a :: t, seq => startsWithW (a :: t) seq || includesW t seq

/-- `word.ts` `isValidWord`: membership of the lowercased word in the loaded
word list (the list itself is loaded from a static file, hence a parameter). -/
def isValidWord (validWords : List Word) (word : Word) : Bool :=
  validWords.contains (toLowerW word)

/-- `word.ts` `containsSequence`: lowercased substring containment. -/
def containsSequence (word : Word) (sequence : Word) : Bool :=
  includesW (toLowerW word) (toLowerW sequence)

/-- Opaque connection identifier (socket id). -/
abbrev PlayerId := Nat

/-- Room code. -/
abbrev RoomId := String

/-- Association-list lookup, modelling `Map.get` (first matching key). -/
def alGet {α : Type} : List (PlayerId × α) → PlayerId → Option α
  | [], _ => none
  | e :: t, k => if e.1 == k then some e.2 else alGet t k

/-- Association-list update/insert, modelling `Map.set`: an existing key keeps
its position, a new key is appended (JS `Map` insertion order). -/
def alSet {α : Type} (m : List (PlayerId × α)) (k : PlayerId) (v : α) :
    List (PlayerId × α) :=
  if m.any (fun e => e.1 == k) then
    m.map (fun e => if e.1 == k then (k, v) else e)
  else
    m ++ [(k, v)]

/-- Association-list removal, modelling `Map.delete`. -/
def alDelete {α : Type} (m : List (PlayerId × α)) (k : PlayerId) :
    List (PlayerId × α) :=
  m.filter (fun e => e.1 != k)

/-- Registry lookup, modelling `rooms[roomId]` (first matching key). -/
def regGet {α : Type} : List (RoomId × α) → RoomId → Option α
  | [], _ => none
  | e :: t, k => if e.1 == k then some e.2 else regGet t k

/-- Registry update/insert, modelling `rooms[roomId] = room`. -/
def regSet {α : Type} (m : List (RoomId × α)) (k : RoomId) (v : α) :
    List (RoomId × α) :=
  if m.any (fun e => e.1 == k) then
    m.map (fun e => if e.1 == k then (k, v) else e)
  else
    m ++ [(k, v)]

/-- Registry removal, modelling `delete rooms[roomId]`. -/
def regDelete {α : Type} (m : List (RoomId × α)) (k : RoomId) :
    List (RoomId × α) :=
  m.filter (fun e => e.1 != k)

/-- `GamePlayer` of `socket.ts`. -/
structure GamePlayer where
  id : PlayerId
  name : String
  lives : Int
  isSpectator : Bool
deriving Repr, DecidableEq

/-- `Room` of `socket.ts`: players are an insertion-ordered map, the optional
fields are the Turn State (`undefined` = `none`). -/
structure Room where
  players : List (PlayerId × GamePlayer)
  owner : PlayerId
  currentLetters : Option Word := none
  currentPlayerIndex : Option Nat := none
  playerOrder : Option (List PlayerId) := none
  usedWords : Option (List Word) := none
deriving Repr, DecidableEq

/-- `DEFAULT_LIVES`. -/
def DEFAULT_LIVES : Int := 2

/-- The room registry `rooms`. -/
abbrev RoomMap := List (RoomId × Room)

/-- Server-to-client events emitted by the modelled handlers (wall-clock
payload fields such as `startTime` are omitted). -/
inductive SEvent where
  | gameError (msg : String)
  | gameStarted (roomId : RoomId) (players : List GamePlayer)
      (currentPlayer : PlayerId) (currentLetters : Word)
  | gameEnded (roomId : RoomId) (winner : Option PlayerId)
      (scores : List (PlayerId × Int))
  | nextTurnEv (currentPlayer : PlayerId) (currentLetters : Word)
  | playerEliminated (pid : PlayerId)
  | playerLostLife (pid : PlayerId) (livesLeft : Int)
  | playerJoined (pid : PlayerId)
  | playerLeft (pid : PlayerId)
  | roomJoined (roomId : RoomId) (isOwner : Bool)
  | roomLeft (roomId : RoomId)
  | roomPlayers (players : List GamePlayer) (ownerId : PlayerId)
deriving Repr, DecidableEq

/-- `emitRoomPlayersUpdate`: broadcast the full player list and owner. -/
def emitRoomPlayersUpdate (room : Room) : List SEvent :=
  [SEvent.roomPlayers (room.players.map (·.2)) room.owner]

/-- `reassignRoomOwner` body, given the room (the caller guarantees the room is
still registered): if the departing connection was the owner and players
remain, the first (earliest-inserted) non-spectator becomes owner, else the
first remaining player; returns the updated room, whether a reassignment
happened, and the emitted events. -/
def reassignRoomOwner (roomId : RoomId) (room : Room) (currentOwnerId : PlayerId) :
    Room × Bool × List SEvent :=
  if room.owner == currentOwnerId && !room.players.isEmpty then
    let next : Option PlayerId :=
      match room.players.find? (fun e => !e.2.isSpectator) with
      | some e => some e.1
      | none => room.players.head?.map (·.1)
    match next with
    | some o =>
        let room' := { room with owner := o }
        (room', true,
          SEvent.roomJoined roomId true :: emitRoomPlayersUpdate room')
    | none => (room, false, [])
  else
    (room, false, [])

/-- `startGame` helper: always resets `usedWords` to a fresh empty set first;
with fewer than 2 players emits `game-error` and stops; otherwise snapshots
`playerOrder`, picks the starting index (oracle `randIdx`, reduced into range
as `Math.floor(Math.random() * length)` always is), generates the challenge
(oracle `letters`) and broadcasts `game-started`. -/
def startGame (randIdx : Nat) (letters : Word) (roomId : RoomId) (room : Room) :
    Room × List SEvent :=
  let room := { room with usedWords := some [] }
  if room.players.length < 2 then
    (room, [SEvent.gameError "Need at least 2 players to start the game"])
  else
    let order := room.players.map (·.1)
    let idx := randIdx % order.length
    let room := { room with
      playerOrder := some order
      currentPlayerIndex := some idx
      currentLetters := some letters }
    (room, [SEvent.gameStarted roomId (room.players.map (·.2))
      (order.getD idx 0) letters])

/-- The `do { currentPlayerIndex = (currentPlayerIndex+1) % length } while
(players.get(playerOrder[currentPlayerIndex])!.lives <= 0)` loop of
`nextTurn`. Looking up an id that is no longer in `players` is the fatal
JavaScript dereference (`undefined.lives`), modelled as `none`. The fuel is
`order.length`, which is enough whenever an alive member exists. -/
def findAlive (players : List (PlayerId × GamePlayer)) (order : List PlayerId) :
    Nat → Nat → Option Nat
  | 0, _ => none
  | fuel + 1, i =>
      let j := (i + 1) % order.length
      match alGet players (order.getD j 0) with
      | none => none
      | some p => if p.lives > 0 then some j else findAlive players order fuel j

/-- Whether `pid` counts as alive in `nextTurn`'s filter: a current member with
positive lives. -/
def isAliveIn (players : List (PlayerId × GamePlayer)) (pid : PlayerId) : Bool :=
  match alGet players pid with
  | some p => p.lives > 0
  | none => false

/-- `nextTurn`: with no Turn State it only logs and returns; with ≤1 alive
players it broadcasts a single `game-ended` (winner = the sole alive player if
exactly one) with every current player's lives as scores and clears all four
Turn State fields; otherwise it advances cyclically to the next entry with
positive lives (fatally dereferencing a departed entry — `none`), regenerates
the challenge only when none is set (`fresh` oracle; JS treats the empty
string as unset) and broadcasts `next-turn`. -/
def nextTurn (fresh : Word) (roomId : RoomId) (room : Room) :
    Option (Room × List SEvent) :=
  match room.playerOrder, room.currentPlayerIndex with
  | some order, some idx =>
      let alive := order.filter (isAliveIn room.players)
      if alive.length ≤ 1 then
        let winner : Option PlayerId :=
          match alive with
          | [w] => some w
          | _ => none
        let scores := room.players.map (fun e => (e.1, e.2.lives))
        some ({ room with
            currentLetters := none
            currentPlayerIndex := none
            playerOrder := none
            usedWords := none },
          [SEvent.gameEnded roomId winner scores])
      else
        match findAlive room.players order order.length idx with
        | none => none
        | some j =>
            let letters :=
              match room.currentLetters with
              | some s => if s.isEmpty then fresh else s
              | none => fresh
            some ({ room with
                currentPlayerIndex := some j
                currentLetters := some letters },
              [SEvent.nextTurnEv (order.getD j 0) letters])
  | _, _ => some (room, [])

/-- `WordResultData` callback payload. -/
structure WordResultData where
  correct : Bool
  feedback : Option String := none
  livesLeft : Option Int := none
  isEliminated : Option Bool := none
deriving Repr, DecidableEq

/-- Outcome of the `submit-word` handler at room level: updated room, the
callback reply and the broadcast events (`none` = the handler hit the fatal
dereference inside `nextTurn`). -/
def submitWord (validWords : List Word) (fresh : Word) (roomId : RoomId)
    (room : Room) (sid : PlayerId) (word : Word) (timeRemaining : Int) :
    Option (Room × WordResultData × List SEvent) :=
  match alGet room.players sid with
  | none =>
      some (room, { correct := false, feedback := some "Player not found in room" }, [])
  | some player =>
      let isTimeUp := timeRemaining ≤ 0
      if isTimeUp then
        -- player.lives-- happens before any turn/spectator/progress check
        let player := { player with lives := player.lives - 1 }
        let room := { room with players := alSet room.players sid player }
        let (feedback, ev) :=
          if player.lives ≤ 0 then
            ("You have been eliminated", SEvent.playerEliminated sid)
          else
            ("Time is up", SEvent.playerLostLife sid player.lives)
        let result : WordResultData :=
          { correct := false, feedback := some feedback, livesLeft := some player.lives }
        match nextTurn fresh roomId room with
        | none => none
        | some (room', evs) => some (room', result, ev :: evs)
      else
        if player.isSpectator then
          some (room,
            { correct := false
              feedback := some "You are a spectator and cannot submit words"
              isEliminated := some true }, [])
        else
          match room.playerOrder, room.currentPlayerIndex with
          | some order, some idx =>
              if order.get? idx != some sid then
                some (room, { correct := false, feedback := some "Not your turn" }, [])
              else if !isValidWord validWords word then
                some (room, { correct := false, feedback := some "Not a valid word" }, [])
              else
                -- `if (!room.usedWords) room.usedWords = new Set()`
                let used := room.usedWords.getD []
                let room := { room with usedWords := some used }
                if used.contains (toLowerW word) then
                  some (room,
                    { correct := false
                      feedback := some "This word has already been used" }, [])
                else
                  -- `!room.currentLetters || !containsSequence(word, room.currentLetters)`
                  -- (the empty string is falsy in JS); the feedback interpolates
                  -- `room.currentLetters || ''`
                  let cl : Word :=
                    match room.currentLetters with
                    | none => []
                    | some s => if s.isEmpty then [] else s
                  if cl.isEmpty || !containsSequence word cl then
                    some (room,
                      { correct := false
                        feedback := some ("Word does not contain \"" ++ String.mk cl ++ "\"")
                        livesLeft := some player.lives }, [])
                  else
                    let used' := used ++ [toLowerW word]
                    let room := { room with usedWords := some used' }
                    let result : WordResultData :=
                      { correct := true
                        feedback := some "Correct!"
                        livesLeft := some player.lives }
                    match nextTurn fresh roomId room with
                    | none => none
                    | some (room', evs) => some (room', result, evs)
          | _, _ =>
              some (room,
                { correct := false
                  feedback := some "Game not properly initialized" }, [])

/-- `start-game` handler: room must exist and the caller must be its owner;
then every player's lives and spectator flag are reset and `startGame` runs;
the callback replies `true` whether or not the game actually started. -/
def startGameHandler (randIdx : Nat) (letters : Word) (rooms : RoomMap)
    (roomId : RoomId) (sid : PlayerId) : RoomMap × Bool × List SEvent :=
  match regGet rooms roomId with
  | none => (rooms, false, [])
  | some room =>
      if room.owner != sid then
        (rooms, false, [])
      else
        let reset := fun (e : PlayerId × GamePlayer) =>
          (e.1, { e.2 with lives := DEFAULT_LIVES, isSpectator := false })
        let room := { room with players := room.players.map reset }
        let (room', evs) := startGame randIdx letters roomId room
        (regSet rooms roomId room', true, evs)

/-- Removing `sid` from a registered room after the membership has been
deleted: owner reassignment, then destruction when empty (shared by
`leave-room`, `disconnect` and the implicit leave inside `join-room`). -/
def removeFromRoom (rooms : RoomMap) (roomId : RoomId) (room : Room)
    (sid : PlayerId) : RoomMap × List SEvent :=
  let room := { room with players := alDelete room.players sid }
  let (room, _, evs) := reassignRoomOwner roomId room sid
  if room.players.isEmpty then
    (regDelete rooms roomId, evs)
  else
    (regSet rooms roomId room, evs ++ emitRoomPlayersUpdate room ++
      [SEvent.playerLeft sid])

/-- `leave-room` handler: fails when the room or the membership is absent;
otherwise removes the player, reassigns ownership if needed and destroys the
room when it becomes empty. -/
def leaveRoom (rooms : RoomMap) (roomId : RoomId) (sid : PlayerId) :
    RoomMap × Bool × List SEvent :=
  match regGet rooms roomId with
  | some room =>
      if (alGet room.players sid).isSome then
        let (rooms', evs) := removeFromRoom rooms roomId room sid
        (rooms', true, evs ++ [SEvent.roomLeft roomId])
      else
        (rooms, false, [])
  | none => (rooms, false, [])

/-- First half of `join-room`: the implicit leave of a different previous
active room (if the connection was a member there). -/
def joinRoomLeavePrev (rooms : RoomMap) (activeRoom : Option RoomId)
    (roomId : RoomId) (sid : PlayerId) : RoomMap × List SEvent :=
  match activeRoom with
  | some prev =>
      if prev != roomId then
        match regGet rooms prev with
        | some room =>
            if (alGet room.players sid).isSome then
              let (rooms', evs) := removeFromRoom rooms prev room sid
              (rooms', evs ++ [SEvent.roomLeft prev])
            else (rooms, [])
        | none => (rooms, [])
      else (rooms, [])
  | none => (rooms, [])

/-- Second half of `join-room`: create the room (joiner becomes owner) or join
it; an existing membership first gets its name updated, and is then
unconditionally overwritten with a fresh `GamePlayer` (lives =
`DEFAULT_LIVES`, not a spectator). -/
def joinRoomInsert (rooms : RoomMap) (roomId : RoomId) (sid : PlayerId)
    (name : String) : RoomMap × (Bool × Bool) × List SEvent :=
  let (rooms, room, isOwner) :=
    match regGet rooms roomId with
    | none =>
        let room : Room := { players := [], owner := sid }
        (regSet rooms roomId room, room, true)
    | some room =>
        let room :=
          match alGet room.players sid with
          | some existing =>
              { room with players := alSet room.players sid { existing with name := name } }
          | none => room
        (regSet rooms roomId room, room, false)
  let gamePlayer : GamePlayer :=
    { id := sid, name := name, lives := DEFAULT_LIVES, isSpectator := false }
  let room := { room with players := alSet room.players sid gamePlayer }
  let rooms := regSet rooms roomId room
  (rooms,
    (true, isOwner || room.owner == sid),
    [SEvent.playerJoined sid,
      SEvent.roomJoined roomId (isOwner || room.owner == sid)] ++
      emitRoomPlayersUpdate room)

/-- `join-room` handler: the implicit leave of a previous room, then creation
or join of the requested room. Returns the registry, the new `activeRoom`,
the callback pair (success, isOwner) and the events. -/
def joinRoom (rooms : RoomMap) (activeRoom : Option RoomId) (roomId : RoomId)
    (sid : PlayerId) (playerName : String) :
    RoomMap × Option RoomId × (Bool × Bool) × List SEvent :=
  let name := if playerName.isEmpty then "Player " ++ toString sid else playerName
  let (rooms, evs0) := joinRoomLeavePrev rooms activeRoom roomId sid
  let (rooms, reply, evs1) := joinRoomInsert rooms roomId sid name
  (rooms, some roomId, reply, evs0 ++ evs1)

/-- `disconnect` handler: an implicit leave of the active room, if any. -/
def disconnectHandler (rooms : RoomMap) (activeRoom : Option RoomId)
    (sid : PlayerId) : RoomMap × List SEvent :=
  match activeRoom with
  | some roomId =>
      match regGet rooms roomId with
      | some room => removeFromRoom rooms roomId room sid
      | none => (rooms, [])
  | none => (rooms, [])

/-- A room is well formed when it has at least one player and its owner is a
current member. -/
def roomWF (room : Room) : Prop :=
  room.players ≠ [] ∧ (alGet room.players room.owner).isSome

/-- Every registered room is well formed. -/
def regWF (rooms : RoomMap) : Prop :=
  ∀ rid room, regGet rooms rid = some room → roomWF room

/-- Executable room well-formedness check. -/
def roomWFb (room : Room) : Bool :=
  !room.players.isEmpty && (alGet room.players room.owner).isSome

/-- Executable sufficient condition for `regWF`: every entry of the registry
list is well formed. -/
def regWFb (rooms : RoomMap) : Bool :=
  rooms.all (fun e => roomWFb e.2)

/-- The rejection preconditions of the claim: the game is not in progress, or
the submitting connection is not `playerOrder[currentIndex]`, or the submitter
is a spectator. -/
def submitRejected (room : Room) (sid : PlayerId) (player : GamePlayer) : Prop :=
  player.isSpectator = true ∨
  room.playerOrder = none ∨
  room.currentPlayerIndex = none ∨
  (match room.playerOrder, room.currentPlayerIndex with
   | some order, some idx => order.get? idx ≠ some sid
   | _, _ => True)

/-! Concrete fixtures used by counterexamples, failing-input evaluations and
witnesses. -/

/-- A spectator holding 2 lives in a room with no active game. -/
def roomC1 : Room :=
  { players := [(1, { id := 1, name := "a", lives := 2, isSpectator := true })]
    owner := 1 }

/-- A room whose sole player has 1 life and is a spectator. -/
def roomC2 : Room :=
  { players := [(1, { id := 1, name := "a", lives := 1, isSpectator := true })]
    owner := 1 }

/-- A one-player registry holding `roomC2`. -/
def regC2 : RoomMap := [("A", roomC2)]

/-- A registry where player 1 is an eliminated spectator member of room A. -/
def regC3 : RoomMap :=
  [("A", { players := [(1, { id := 1, name := "old", lives := 0, isSpectator := true }),
                       (2, { id := 2, name := "b", lives := 2, isSpectator := false })]
           owner := 2 })]

/-- An in-progress three-player game whose current player has a single life. -/
def roomC4 : Room :=
  { players := [(1, { id := 1, name := "a", lives := 1, isSpectator := false }),
                (2, { id := 2, name := "b", lives := 2, isSpectator := false }),
                (3, { id := 3, name := "c", lives := 2, isSpectator := false })]
    owner := 1
    currentLetters := some ['a', 'b']
    currentPlayerIndex := some 0
    playerOrder := some [1, 2, 3]
    usedWords := some [] }

/-- An in-progress game whose `playerOrder` still lists player 2, who has left
the room; players 1 and 3 are alive members. -/
def roomC5 : Room :=
  { players := [(1, { id := 1, name := "a", lives := 2, isSpectator := false }),
                (3, { id := 3, name := "c", lives := 1, isSpectator := false })]
    owner := 1
    currentLetters := some ['a', 'b']
    currentPlayerIndex := some 0
    playerOrder := some [1, 2, 3]
    usedWords := some [] }

/-- A healthy in-progress two-player game with player 1 to play. -/
def roomC6 : Room :=
  { players := [(1, { id := 1, name := "a", lives := 2, isSpectator := false }),
                (2, { id := 2, name := "b", lives := 2, isSpectator := false })]
    owner := 1
    currentLetters := some ['a', 'b']
    currentPlayerIndex := some 0
    playerOrder := some [1, 2]
    usedWords := some [] }

/-- An in-progress two-player game in which player 2 is already out of lives. -/
def roomC8 : Room :=
  { players := [(1, { id := 1, name := "a", lives := 2, isSpectator := false }),
                (2, { id := 2, name := "b", lives := 0, isSpectator := false })]
    owner := 1
    currentLetters := some ['a', 'b']
    currentPlayerIndex := some 1
    playerOrder := some [1, 2]
    usedWords := some [] }

/-- A room whose sole member is its owner, player 1. -/
def roomC9 : Room :=
  { players := [(1, { id := 1, name := "a", lives := 2, isSpectator := false })]
    owner := 1 }

/-- A registry holding only `roomC9`. -/
def regC9 : RoomMap := [("A", roomC9)]

/-! Theorems. -/

/-- C1, counterexample: in `roomC1` no game is in progress and the submitter
is a spectator, yet a `submit-word` with `timeRemaining = 0` decrements the
player's lives from 2 to 1 and broadcasts `player-lost-life`, contradicting
the claim that such a submit is a no-op error that never changes lives. -/
theorem C1_timeout_cex :
    roomC1.playerOrder = none ∧
    (alGet roomC1.players 1).map (fun p => (p.isSpectator, p.lives)) =
      some (true, 2) ∧
    (submitWord [] ['x'] "A" roomC1 1 [] 0).map
      (fun out => ((alGet out.1.players 1).map (fun p => p.lives), out.2.2)) =
      some (some 1, [SEvent.playerLostLife 1 1]) := by
  decide

/-- C2, counterexample: in `regC2` room A has a single player (1 life,
spectator); `start-game` by the owner replies `true` (the claim says the
reply reports failure), resets `usedWords` to an empty set (the claim says it
stays unset) and resets the player's lives and spectator flag (the claim says
they are unchanged). -/
theorem C2_start_cex :
    (regGet regC2 "A").map
      (fun r => (r.usedWords, r.players.map (fun e => (e.1, e.2.lives, e.2.isSpectator)))) =
      some (none, [(1, 1, true)]) ∧
    (startGameHandler 0 ['a', 'b'] regC2 "A" 1).2.1 = true ∧
    (startGameHandler 0 ['a', 'b'] regC2 "A" 1).2.2 =
      [SEvent.gameError "Need at least 2 players to start the game"] ∧
    (regGet (startGameHandler 0 ['a', 'b'] regC2 "A" 1).1 "A").map
      (fun r => (r.usedWords, r.players.map (fun e => (e.1, e.2.lives, e.2.isSpectator)))) =
      some (some [], [(1, 2, false)]) :=
  ⟨by decide, by decide, by decide, by decide⟩

/-- C3: evaluating `join-room` at the failing input: player 1, an eliminated
spectator member of room A with 0 lives, rejoins room A; the handler
overwrites the membership with a fresh player, so lives become 2 and the
spectator flag is cleared instead of being preserved. -/
theorem C3_rejoin_resets :
    (regGet regC3 "A").bind (fun r => alGet r.players 1) =
      some { id := 1, name := "old", lives := 0, isSpectator := true } ∧
    (regGet (joinRoom regC3 (some "A") "A" 1 "alice").1 "A").bind
      (fun r => alGet r.players 1) =
      some { id := 1, name := "alice", lives := 2, isSpectator := false } := by
  decide

/-- C4: evaluating `submit-word` at the failing input: in `roomC4` the current
player has 1 life and times out; lives drop to 0 and `player-eliminated` is
broadcast, but the player's `isSpectator` flag remains `false` — the code
never marks an eliminated player as spectator. -/
theorem C4_no_spectator_mark :
    (alGet roomC4.players 1).map (fun p => (p.lives, p.isSpectator)) =
      some (1, false) ∧
    (submitWord [] ['z'] "A" roomC4 1 ['x'] 0).map
      (fun out => ((alGet out.1.players 1).map (fun p => (p.lives, p.isSpectator)),
        out.2.2.head?)) =
      some (some (0, false), some (SEvent.playerEliminated 1)) := by
  decide

/-- C5, counterexample: in `roomC5` the Turn State exists and two alive
players remain, but `playerOrder` contains departed player 2; the advance
loop dereferences the missing entry and `nextTurn` is fatal (`none`) instead
of skipping it. -/
theorem C5_departed_cex :
    roomC5.playerOrder = some [1, 2, 3] ∧
    ([1, 2, 3].filter (isAliveIn roomC5.players)).length = 2 ∧
    alGet roomC5.players 2 = none ∧
    nextTurn ['z'] "A" roomC5 = none := by
  decide

/-! Association-list lemmas. -/

/-- Setting a key makes it retrievable. -/
theorem alGet_alSet_self {α : Type} (m : List (PlayerId × α)) (k : PlayerId) (v : α) :
    alGet (alSet m k v) k = some v := by
  unfold alSet
  by_cases hm : m.any (fun e => e.1 == k)
  · simp only [hm, if_true]
    induction m with
    | nil => simp at hm
    | cons a t ih =>
        by_cases ha : a.1 = k
        · simp [alGet, ha]
        · have ha' : (a.1 == k) = false := by simp [ha]
          simp only [List.any_cons, ha', Bool.false_or] at hm
          simp only [List.map_cons, ha', Bool.false_eq_true, if_false]
          rw [alGet, ha']
          simp only [Bool.false_eq_true, if_false]
          exact ih hm
  · rw [Bool.not_eq_true] at hm
    simp only [hm, Bool.false_eq_true, if_false]
    induction m with
    | nil => simp [alGet]
    | cons a t ih =>
        simp only [List.any_cons, Bool.or_eq_false_iff] at hm
        rw [List.cons_append, alGet, hm.1]
        simp only [Bool.false_eq_true, if_false]
        exact ih hm.2

/-- Other keys are unaffected by a set. -/
theorem alGet_alSet_ne {α : Type} (m : List (PlayerId × α)) (k k' : PlayerId)
    (v : α) (h : k' ≠ k) : alGet (alSet m k v) k' = alGet m k' := by
  have hk : (k == k') = false := by
    simp only [beq_eq_false_iff_ne, ne_eq]
    exact fun hh => h hh.symm
  have hmap : alGet (m.map (fun e => if e.1 == k then (k, v) else e)) k' = alGet m k' := by
    induction m with
    | nil => simp [alGet]
    | cons a t ih =>
        rw [List.map_cons, alGet, alGet]
        by_cases ha : a.1 = k
        · have ha1 : (a.1 == k) = true := by simp [ha]
          have ha2 : (a.1 == k') = false := by rw [ha]; exact hk
          simp only [ha1, if_true, hk, ha2, Bool.false_eq_true, if_false]
          exact ih
        · have ha1 : (a.1 == k) = false := by simp [ha]
          simp only [ha1, Bool.false_eq_true, if_false]
          cases hb : (a.1 == k') with
          | true => simp [hb]
          | false =>
              simp only [Bool.false_eq_true, if_false]
              exact ih
  have happ : alGet (m ++ [(k, v)]) k' = alGet m k' := by
    clear hmap
    induction m with
    | nil => simp [alGet, hk]
    | cons a t ih =>
        rw [List.cons_append, alGet, alGet]
        cases hb : (a.1 == k') with
        | true => simp
        | false =>
            simp only [Bool.false_eq_true, if_false]
            exact ih
  unfold alSet
  by_cases hm : m.any (fun e => e.1 == k)
  · simp only [hm, if_true]
    exact hmap
  · rw [Bool.not_eq_true] at hm
    simp only [hm, Bool.false_eq_true, if_false]
    exact happ

/-- Other keys are unaffected by a delete. -/
theorem alGet_alDelete_ne {α : Type} (m : List (PlayerId × α)) (k k' : PlayerId)
    (h : k' ≠ k) : alGet (alDelete m k) k' = alGet m k' := by
  induction m with
  | nil => rfl
  | cons a t ih =>
      unfold alDelete at ih ⊢
      rw [List.filter_cons]
      by_cases ha : a.1 = k
      · have h1 : (a.1 != k) = false := by simp [ha]
        have h2 : (a.1 == k') = false := by
          rw [ha]
          simp only [beq_eq_false_iff_ne, ne_eq]
          exact fun hh => h hh.symm
        simp only [h1, Bool.false_eq_true, if_false]
        rw [ih, alGet, h2]
        simp
      · have h1 : (a.1 != k) = true := by simp [ha]
        simp only [h1, if_true]
        rw [alGet, alGet]
        cases hb : (a.1 == k') with
        | true => simp
        | false =>
            simp only [Bool.false_eq_true, if_false]
            exact ih

/-- Deleting a key removes every binding of it. -/
theorem alGet_alDelete_self {α : Type} (m : List (PlayerId × α)) (k : PlayerId) :
    alGet (alDelete m k) k = none := by
  induction m with
  | nil => rfl
  | cons a t ih =>
      unfold alDelete at ih ⊢
      rw [List.filter_cons]
      by_cases ha : a.1 = k
      · have h1 : (a.1 != k) = false := by simp [ha]
        simp only [h1, Bool.false_eq_true, if_false]
        exact ih
      · have h1 : (a.1 != k) = true := by simp [ha]
        have h2 : (a.1 == k) = false := by simp [ha]
        simp only [h1, if_true]
        rw [alGet, h2]
        simp only [Bool.false_eq_true, if_false]
        exact ih

/-- A list member's key is retrievable. -/
theorem alGet_isSome_of_mem {α : Type} (m : List (PlayerId × α))
    (e : PlayerId × α) (h : e ∈ m) : (alGet m e.1).isSome := by
  induction m with
  | nil => simp at h
  | cons a t ih =>
      rw [alGet]
      cases hb : (a.1 == e.1) with
      | true => simp
      | false =>
          simp only [Bool.false_eq_true, if_false]
          rcases List.mem_cons.mp h with h1 | h2
          · rw [h1] at hb
            simp at hb
          · exact ih h2

/-- A set result is never empty. -/
theorem alSet_ne_nil {α : Type} (m : List (PlayerId × α)) (k : PlayerId) (v : α) :
    alSet m k v ≠ [] := by
  unfold alSet
  by_cases hm : m.any (fun e => e.1 == k)
  · simp only [hm, if_true]
    intro hc
    rw [List.map_eq_nil_iff] at hc
    simp [hc] at hm
  · rw [Bool.not_eq_true] at hm
    simp [hm]

/-- Setting a room makes it retrievable. -/
theorem regGet_regSet_self {α : Type} (m : List (RoomId × α)) (k : RoomId) (v : α) :
    regGet (regSet m k v) k = some v := by
  unfold regSet
  by_cases hm : m.any (fun e => e.1 == k)
  · simp only [hm, if_true]
    induction m with
    | nil => simp at hm
    | cons a t ih =>
        by_cases ha : a.1 = k
        · simp [regGet, ha]
        · have ha' : (a.1 == k) = false := by simp [ha]
          simp only [List.any_cons, ha', Bool.false_or] at hm
          simp only [List.map_cons, ha', Bool.false_eq_true, if_false]
          rw [regGet, ha']
          simp only [Bool.false_eq_true, if_false]
          exact ih hm
  · rw [Bool.not_eq_true] at hm
    simp only [hm, Bool.false_eq_true, if_false]
    induction m with
    | nil => simp [regGet]
    | cons a t ih =>
        simp only [List.any_cons, Bool.or_eq_false_iff] at hm
        rw [List.cons_append, regGet, hm.1]
        simp only [Bool.false_eq_true, if_false]
        exact ih hm.2

/-- Other rooms are unaffected by a set. -/
theorem regGet_regSet_ne {α : Type} (m : List (RoomId × α)) (k k' : RoomId)
    (v : α) (h : k' ≠ k) : regGet (regSet m k v) k' = regGet m k' := by
  have hk : (k == k') = false := by
    simp only [beq_eq_false_iff_ne, ne_eq]
    exact fun hh => h hh.symm
  have hmap : regGet (m.map (fun e => if e.1 == k then (k, v) else e)) k' = regGet m k' := by
    induction m with
    | nil => simp [regGet]
    | cons a t ih =>
        rw [List.map_cons, regGet, regGet]
        by_cases ha : a.1 = k
        · have ha1 : (a.1 == k) = true := by simp [ha]
          have ha2 : (a.1 == k') = false := by rw [ha]; exact hk
          simp only [ha1, if_true, hk, ha2, Bool.false_eq_true, if_false]
          exact ih
        · have ha1 : (a.1 == k) = false := by simp [ha]
          simp only [ha1, Bool.false_eq_true, if_false]
          cases hb : (a.1 == k') with
          | true => simp [hb]
          | false =>
              simp only [Bool.false_eq_true, if_false]
              exact ih
  have happ : regGet (m ++ [(k, v)]) k' = regGet m k' := by
    clear hmap
    induction m with
    | nil => simp [regGet, hk]
    | cons a t ih =>
        rw [List.cons_append, regGet, regGet]
        cases hb : (a.1 == k') with
        | true => simp
        | false =>
            simp only [Bool.false_eq_true, if_false]
            exact ih
  unfold regSet
  by_cases hm : m.any (fun e => e.1 == k)
  · simp only [hm, if_true]
    exact hmap
  · rw [Bool.not_eq_true] at hm
    simp only [hm, Bool.false_eq_true, if_false]
    exact happ

/-- Other rooms are unaffected by a delete. -/
theorem regGet_regDelete_ne {α : Type} (m : List (RoomId × α)) (k k' : RoomId)
    (h : k' ≠ k) : regGet (regDelete m k) k' = regGet m k' := by
  induction m with
  | nil => rfl
  | cons a t ih =>
      unfold regDelete at ih ⊢
      rw [List.filter_cons]
      by_cases ha : a.1 = k
      · have h1 : (a.1 != k) = false := by simp [ha]
        have h2 : (a.1 == k') = false := by
          rw [ha]
          simp only [beq_eq_false_iff_ne, ne_eq]
          exact fun hh => h hh.symm
        simp only [h1, Bool.false_eq_true, if_false]
        rw [ih, regGet, h2]
        simp
      · have h1 : (a.1 != k) = true := by simp [ha]
        simp only [h1, if_true]
        rw [regGet, regGet]
        cases hb : (a.1 == k') with
        | true => simp
        | false =>
            simp only [Bool.false_eq_true, if_false]
            exact ih

/-- Deleting a room removes every binding of it. -/
theorem regGet_regDelete_self {α : Type} (m : List (RoomId × α)) (k : RoomId) :
    regGet (regDelete m k) k = none := by
  induction m with
  | nil => rfl
  | cons a t ih =>
      unfold regDelete at ih ⊢
      rw [List.filter_cons]
      by_cases ha : a.1 = k
      · have h1 : (a.1 != k) = false := by simp [ha]
        simp only [h1, Bool.false_eq_true, if_false]
        exact ih
      · have h1 : (a.1 != k) = true := by simp [ha]
        have h2 : (a.1 == k) = false := by simp [ha]
        simp only [h1, if_true]
        rw [regGet, h2]
        simp only [Bool.false_eq_true, if_false]
        exact ih

/-- C8: whenever the Turn State exists and the advance step finds at most one
alive player among `playerOrder`, `nextTurn` broadcasts exactly one
`game-ended` event, whose winner is the sole alive player (none when zero
alive) and whose scores map every current player to their final lives, and
all four Turn State fields become absent. -/
theorem C8_game_end (fresh : Word) (roomId : RoomId) (room : Room)
    (order : List PlayerId) (idx : Nat)
    (h_order : room.playerOrder = some order)
    (h_idx : room.currentPlayerIndex = some idx)
    (h_alive : (order.filter (isAliveIn room.players)).length ≤ 1) :
    nextTurn fresh roomId room =
      some ({ room with
          currentLetters := none
          currentPlayerIndex := none
          playerOrder := none
          usedWords := none },
        [SEvent.gameEnded roomId
          (match order.filter (isAliveIn room.players) with
           | [w] => some w
           | _ => none)
          (room.players.map (fun e => (e.1, e.2.lives)))]) := by
  unfold nextTurn
  rw [h_order, h_idx]
  simp only [h_alive, if_pos]

/-- C8 witness: in `roomC8` exactly one of the two ordered players is alive;
the advance ends the game with player 1 as winner, the final scores and a
cleared Turn State. -/
theorem C8_game_end_witness :
    nextTurn ['z'] "A" roomC8 =
      some ({ roomC8 with
          currentLetters := none
          currentPlayerIndex := none
          playerOrder := none
          usedWords := none },
        [SEvent.gameEnded "A"
          (match [1, 2].filter (isAliveIn roomC8.players) with
           | [w] => some w
           | _ => none)
          (roomC8.players.map (fun e => (e.1, e.2.lives)))]) :=
  C8_game_end ['z'] "A" roomC8 [1, 2] 1 rfl rfl (by decide)

/-- C10: `submit-word` is case-insensitive — two words with the same
lowercasing produce the same reply, the same room state and the same events,
because the dictionary lookup, the `usedWords` membership and insertion, and
the challenge containment all operate on the lowercased word. -/
theorem C10_case_insensitive (dict : List Word) (fresh : Word) (roomId : RoomId)
    (room : Room) (sid : PlayerId) (w1 w2 : Word) (t : Int)
    (h_low : toLowerW w1 = toLowerW w2) :
    submitWord dict fresh roomId room sid w1 t =
      submitWord dict fresh roomId room sid w2 t := by
  unfold submitWord isValidWord containsSequence
  rw [h_low]

/-- C10 witness: in `roomC6` the submissions of "CAB" and "cab" coincide. -/
theorem C10_case_insensitive_witness :
    submitWord [['c', 'a', 'b']] ['z'] "A" roomC6 1 ['C', 'A', 'B'] 5 =
      submitWord [['c', 'a', 'b']] ['z'] "A" roomC6 1 ['c', 'a', 'b'] 5 :=
  C10_case_insensitive [['c', 'a', 'b']] ['z'] "A" roomC6 1
    ['C', 'A', 'B'] ['c', 'a', 'b'] 5 (by decide)

/-- C2 (amended): a `start-game` by the owner of a room with fewer than 2
players does not start the game — `playerOrder`, `currentPlayerIndex` and
`currentLetters` keep their previous values and only a `game-error` is
emitted — but the callback still replies `true`, `usedWords` is reset to an
empty set, and every player's lives are reset to `DEFAULT_LIVES` with the
spectator flag cleared. -/
theorem C2_start_under2 (randIdx : Nat) (letters : Word) (rooms : RoomMap)
    (roomId : RoomId) (sid : PlayerId) (room : Room)
    (h_room : regGet rooms roomId = some room)
    (h_owner : room.owner = sid)
    (h_few : room.players.length < 2) :
    (startGameHandler randIdx letters rooms roomId sid).2.1 = true ∧
    (startGameHandler randIdx letters rooms roomId sid).2.2 =
      [SEvent.gameError "Need at least 2 players to start the game"] ∧
    regGet (startGameHandler randIdx letters rooms roomId sid).1 roomId =
      some { room with
        players := room.players.map
          (fun e => (e.1, { e.2 with lives := DEFAULT_LIVES, isSpectator := false }))
        usedWords := some [] } := by
  unfold startGameHandler
  rw [h_room]
  have hlen : (room.players.map
      (fun e => (e.1, { e.2 with lives := DEFAULT_LIVES, isSpectator := false }))).length < 2 := by
    simpa using h_few
  simp only [h_owner, bne_self_eq_false, Bool.false_eq_true, if_false,
    startGame, hlen, if_pos]
  refine ⟨?_, ?_, ?_⟩
  · trivial
  · trivial
  · rw [regGet_regSet_self]

/-- C2 witness: the under-populated start in `regC2` replies `true`, emits the
`game-error`, resets `usedWords` to an empty set and resets the sole player's
lives and spectator flag. -/
theorem C2_start_under2_witness :
    (startGameHandler 0 ['a', 'b'] regC2 "A" 1).2.1 = true ∧
    (startGameHandler 0 ['a', 'b'] regC2 "A" 1).2.2 =
      [SEvent.gameError "Need at least 2 players to start the game"] ∧
    regGet (startGameHandler 0 ['a', 'b'] regC2 "A" 1).1 "A" =
      some { roomC2 with
        players := roomC2.players.map
          (fun e => (e.1, { e.2 with lives := DEFAULT_LIVES, isSpectator := false }))
        usedWords := some [] } :=
  C2_start_under2 0 ['a', 'b'] regC2 "A" 1 roomC2 (by decide) (by decide) (by decide)

/-- C1 (amended): for an ON-TIME submission (`timeRemaining > 0`), if the game
is not in progress, or the submitter is not `playerOrder[currentIndex]`, or
the submitter is a spectator, then `submit-word` is a no-op error: the room
is unchanged, the reply is a rejection and no event is broadcast. (When
`timeRemaining ≤ 0` the code instead decrements the lives of any member that
submits, before any of these checks — see the counterexample.) -/
theorem C1_ontime_noop (dict : List Word) (fresh : Word) (roomId : RoomId)
    (room : Room) (sid : PlayerId) (player : GamePlayer) (w : Word) (t : Int)
    (h_player : alGet room.players sid = some player)
    (h_time : 0 < t)
    (h_rej : submitRejected room sid player) :
    (submitWord dict fresh roomId room sid w t).map
      (fun out => (out.1, out.2.1.correct, out.2.2)) = some (room, false, []) := by
  have ht : ¬ (t ≤ 0) := by omega
  unfold submitRejected at h_rej
  simp only [submitWord, h_player]
  rw [if_neg ht]
  by_cases hspec : player.isSpectator
  · simp [hspec]
  · have hs' : player.isSpectator = false := by simpa using hspec
    rcases h_rej with hs | hp | hi | hmatch
    · exact absurd hs hspec
    · simp [hs', hp]
    · cases hpo : room.playerOrder with
      | none => simp [hs', hpo]
      | some order => simp [hs', hpo, hi]
    · cases hpo : room.playerOrder with
      | none => simp [hs', hpo]
      | some order =>
          cases hci : room.currentPlayerIndex with
          | none => simp [hs', hpo, hci]
          | some idx =>
              simp only [hpo, hci] at hmatch
              have hm2 : order[idx]? ≠ some sid := by
                simpa [List.get?_eq_getElem?] using hmatch
              simp [hs', hpo, hci, hm2]

/-- C1 witness: player 2 of `roomC6` submits on time while it is player 1's
turn; the submit is a pure rejection. -/
theorem C1_ontime_noop_witness :
    (submitWord [] ['z'] "A" roomC6 2 ['x'] 5).map
      (fun out => (out.1, out.2.1.correct, out.2.2)) = some (roomC6, false, []) :=
  C1_ontime_noop [] ['z'] "A" roomC6 2
    { id := 2, name := "b", lives := 2, isSpectator := false } ['x'] 5
    (by decide) (by decide)
    (by
      unfold submitRejected
      right
      right
      right
      show (([1, 2] : List PlayerId).get? 0) ≠ some 2
      decide)

/-- C6: for an in-progress, on-time submission by the current (non-spectator)
turn-holder the checks run in order — (a) dictionary validity, (b)
case-insensitive membership of `usedWords`, (c) case-insensitive containment
of the challenge. The first failing check returns a rejection with its
human-readable reason, leaves the room (in particular `usedWords`) unchanged
and broadcasts nothing; when all pass, the lowercased word is appended to
`usedWords`, the reply is correct and the turn advances via `nextTurn`. -/
theorem C6_validation_order (dict : List Word) (fresh : Word) (roomId : RoomId)
    (room : Room) (sid : PlayerId) (player : GamePlayer) (order : List PlayerId)
    (idx : Nat) (used : List Word) (cl : Word) (w : Word) (t : Int)
    (h_player : alGet room.players sid = some player)
    (h_time : 0 < t)
    (h_spec : player.isSpectator = false)
    (h_order : room.playerOrder = some order)
    (h_idx : room.currentPlayerIndex = some idx)
    (h_turn : order.get? idx = some sid)
    (h_used : room.usedWords = some used)
    (h_cl : room.currentLetters = some cl)
    (h_cl_ne : cl ≠ []) :
    (isValidWord dict w = false →
      submitWord dict fresh roomId room sid w t =
        some (room, ⟨false, some "Not a valid word", none, none⟩, [])) ∧
    (isValidWord dict w = true → used.contains (toLowerW w) = true →
      submitWord dict fresh roomId room sid w t =
        some (room, ⟨false, some "This word has already been used", none, none⟩, [])) ∧
    (isValidWord dict w = true → used.contains (toLowerW w) = false →
      containsSequence w cl = false →
      submitWord dict fresh roomId room sid w t =
        some (room,
          ⟨false, some ("Word does not contain \"" ++ String.mk cl ++ "\""),
            some player.lives, none⟩, [])) ∧
    (isValidWord dict w = true → used.contains (toLowerW w) = false →
      containsSequence w cl = true →
      submitWord dict fresh roomId room sid w t =
        (nextTurn fresh roomId { room with usedWords := some (used ++ [toLowerW w]) }).map
          (fun out => (out.1, ⟨true, some "Correct!", some player.lives, none⟩, out.2))) := by
  have ht : ¬ (t ≤ 0) := by omega
  obtain ⟨ps, ow, cl0, cpi, po, uw⟩ := room
  simp only at h_player h_order h_idx h_used h_cl
  subst h_order h_idx h_used h_cl
  have h_turn' : order[idx]? = some sid := by
    simpa [List.get?_eq_getElem?] using h_turn
  refine ⟨?_, ?_, ?_, ?_⟩
  · intro hv
    simp only [submitWord, h_player]
    rw [if_neg ht]
    simp [h_spec, h_turn', hv]
  · intro hv hu
    have hu' : toLowerW w ∈ used := by simpa using hu
    simp only [submitWord, h_player]
    rw [if_neg ht]
    simp [h_spec, h_turn', hv, hu']
  · intro hv hu hc
    have hu' : toLowerW w ∉ used := by simpa using hu
    simp only [submitWord, h_player]
    rw [if_neg ht]
    simp [h_spec, h_turn', hv, hu', h_cl_ne, hc]
  · intro hv hu hc
    have hu' : toLowerW w ∉ used := by simpa using hu
    simp only [submitWord, h_player]
    rw [if_neg ht]
    cases hnt : nextTurn fresh roomId
        { players := ps, owner := ow, currentLetters := some cl,
          currentPlayerIndex := some idx, playerOrder := some order,
          usedWords := some (used ++ [toLowerW w]) } with
    | none => simp [h_spec, h_turn', hv, hu', h_cl_ne, hc, hnt]
    | some out => simp [h_spec, h_turn', hv, hu', h_cl_ne, hc, hnt]

/-- C6 witness: the validation chain applied in `roomC6` with the dictionary
containing only "cab", challenge "ab" and submitter 1 on time. -/
theorem C6_validation_order_witness :
    (isValidWord [['c', 'a', 'b']] ['c', 'a', 'b'] = false →
      submitWord [['c', 'a', 'b']] ['z'] "A" roomC6 1 ['c', 'a', 'b'] 5 =
        some (roomC6, ⟨false, some "Not a valid word", none, none⟩, [])) ∧
    (isValidWord [['c', 'a', 'b']] ['c', 'a', 'b'] = true →
      List.contains [] (toLowerW ['c', 'a', 'b']) = true →
      submitWord [['c', 'a', 'b']] ['z'] "A" roomC6 1 ['c', 'a', 'b'] 5 =
        some (roomC6, ⟨false, some "This word has already been used", none, none⟩, [])) ∧
    (isValidWord [['c', 'a', 'b']] ['c', 'a', 'b'] = true →
      List.contains [] (toLowerW ['c', 'a', 'b']) = false →
      containsSequence ['c', 'a', 'b'] ['a', 'b'] = false →
      submitWord [['c', 'a', 'b']] ['z'] "A" roomC6 1 ['c', 'a', 'b'] 5 =
        some (roomC6,
          ⟨false, some ("Word does not contain \"" ++ String.mk ['a', 'b'] ++ "\""),
            some (2 : Int), none⟩, [])) ∧
    (isValidWord [['c', 'a', 'b']] ['c', 'a', 'b'] = true →
      List.contains [] (toLowerW ['c', 'a', 'b']) = false →
      containsSequence ['c', 'a', 'b'] ['a', 'b'] = true →
      submitWord [['c', 'a', 'b']] ['z'] "A" roomC6 1 ['c', 'a', 'b'] 5 =
        (nextTurn ['z'] "A"
            { roomC6 with usedWords := some ([] ++ [toLowerW ['c', 'a', 'b']]) }).map
          (fun out => (out.1, ⟨true, some "Correct!", some (2 : Int), none⟩, out.2))) :=
  C6_validation_order [['c', 'a', 'b']] ['z'] "A" roomC6 1
    { id := 1, name := "a", lives := 2, isSpectator := false }
    [1, 2] 0 [] ['a', 'b'] ['c', 'a', 'b'] 5
    (by decide) (by decide) (by decide) rfl rfl (by decide) rfl rfl (by decide)

/-- Cyclic reachability: from any starting point `i` there is a positive step
count `d ≤ n` after which the cyclic successor walk lands on index `k < n`. -/
theorem exists_step (n i k : Nat) (hn : 0 < n) (hk : k < n) :
    ∃ d, 1 ≤ d ∧ d ≤ n ∧ (i + d) % n = k := by
  have hr : i % n < n := Nat.mod_lt _ hn
  by_cases hc : i % n < k
  · refine ⟨k - i % n, by omega, by omega, ?_⟩
    rw [← Nat.mod_add_mod]
    have he : i % n + (k - i % n) = k := by omega
    rw [he]
    exact Nat.mod_eq_of_lt hk
  · refine ⟨n - i % n + k, by omega, by omega, ?_⟩
    rw [← Nat.mod_add_mod]
    have he : i % n + (n - i % n + k) = n + k := by omega
    rw [he]
    rw [Nat.add_mod_left]
    exact Nat.mod_eq_of_lt hk

/-- The advance loop succeeds when every entry of `playerOrder` is a current
member and some index `k` holds an alive player reachable within the fuel:
it stops on an alive index without the fatal dereference. -/
theorem findAlive_reaches (players : List (PlayerId × GamePlayer))
    (order : List PlayerId) (k : Nat) (hk : k < order.length)
    (hmem : ∀ pid ∈ order, (alGet players pid).isSome)
    (hal : isAliveIn players (order.getD k 0) = true) :
    ∀ fuel i d, 1 ≤ d → d ≤ fuel → (i + d) % order.length = k →
      ∃ j, findAlive players order fuel i = some j ∧ j < order.length ∧
        isAliveIn players (order.getD j 0) = true := by
  intro fuel
  induction fuel with
  | zero =>
      intro i d h1 h2 _
      omega
  | succ f ih =>
      intro i d h1 h2 hd
      have hn : 0 < order.length := by omega
      have hjlt : (i + 1) % order.length < order.length := Nat.mod_lt _ hn
      have hjmem : order.getD ((i + 1) % order.length) 0 ∈ order := by
        rw [List.getD_eq_getElem?_getD, List.getElem?_eq_getElem hjlt]
        exact List.getElem_mem hjlt
      obtain ⟨p, hp⟩ := Option.isSome_iff_exists.mp (hmem _ hjmem)
      simp only [findAlive, hp]
      by_cases hl : p.lives > 0
      · refine ⟨(i + 1) % order.length, ?_, hjlt, ?_⟩
        · simp [hl]
        · unfold isAliveIn
          rw [hp]
          simpa using hl
      · have hdne : d ≠ 1 := by
          intro h1'
          subst h1'
          have hjk : (i + 1) % order.length = k := hd
          rw [hjk] at hp
          unfold isAliveIn at hal
          rw [hp] at hal
          simp at hal
          omega
        have hd' : ((i + 1) % order.length + (d - 1)) % order.length = k := by
          rw [Nat.mod_add_mod]
          have he : i + 1 + (d - 1) = i + d := by omega
          rw [he, hd]
        obtain ⟨j, hja, hjb, hjc⟩ :=
          ih ((i + 1) % order.length) (d - 1) (by omega) (by omega) hd'
        refine ⟨j, ?_, hjb, hjc⟩
        simp only [hl, if_false]
        simpa using hja

/-- C5 (amended): when the Turn State exists, every entry of `playerOrder` is
still a current member and at least two alive players remain, the advance
step terminates without the fatal dereference and lands `currentIndex` on an
alive player. (When `playerOrder` contains a departed player reached during
the advance, the loop dereferences the missing entry fatally instead of
skipping it — see the counterexample.) -/
theorem C5_advance_members (fresh : Word) (roomId : RoomId) (room : Room)
    (order : List PlayerId) (idx : Nat)
    (h_order : room.playerOrder = some order)
    (h_idx : room.currentPlayerIndex = some idx)
    (h_mem : ∀ pid ∈ order, (alGet room.players pid).isSome)
    (h_alive : 2 ≤ (order.filter (isAliveIn room.players)).length) :
    ∃ j room' evs, nextTurn fresh roomId room = some (room', evs) ∧
      room'.currentPlayerIndex = some j ∧ j < order.length ∧
      isAliveIn room.players (order.getD j 0) = true := by
  have hfilter : order.filter (isAliveIn room.players) ≠ [] := by
    intro hc
    rw [hc] at h_alive
    simp at h_alive
  obtain ⟨x, hx⟩ := List.exists_mem_of_ne_nil _ hfilter
  have hx' := List.mem_filter.mp hx
  obtain ⟨k, hk, hkx⟩ := List.mem_iff_getElem.mp hx'.1
  have halk : isAliveIn room.players (order.getD k 0) = true := by
    rw [List.getD_eq_getElem?_getD, List.getElem?_eq_getElem hk]
    simpa [hkx] using hx'.2
  have hn : 0 < order.length := by omega
  obtain ⟨d, hd1, hd2, hd3⟩ := exists_step order.length idx k hn hk
  obtain ⟨j, hfa, hjlt, hja⟩ :=
    findAlive_reaches room.players order k hk h_mem halk order.length idx d hd1 hd2 hd3
  have hng : ¬ ((order.filter (isAliveIn room.players)).length ≤ 1) := by omega
  refine ⟨j, ?_⟩
  simp only [nextTurn, h_order, h_idx, hng, if_false, hfa]
  exact ⟨_, _, rfl, rfl, hjlt, hja⟩

/-- C5 witness: in `roomC6` (all order entries are members, two alive) the
advance from index 0 lands on index 1, player 2, alive. -/
theorem C5_advance_members_witness :
    ∃ j room' evs, nextTurn ['z'] "A" roomC6 = some (room', evs) ∧
      room'.currentPlayerIndex = some j ∧ j < [1, 2].length ∧
      isAliveIn roomC6.players ([1, 2].getD j 0) = true :=
  C5_advance_members ['z'] "A" roomC6 [1, 2] 0 rfl rfl (by decide) (by decide)

/-- A successful registry lookup comes from some entry of the list. -/
theorem regGet_mem {α : Type} (m : List (RoomId × α)) (k : RoomId) (v : α)
    (h : regGet m k = some v) : ∃ e ∈ m, e.2 = v := by
  induction m with
  | nil => simp [regGet] at h
  | cons a t ih =>
      rw [regGet] at h
      cases hb : (a.1 == k) with
      | true =>
          rw [hb] at h
          simp at h
          exact ⟨a, List.mem_cons_self _ _, h⟩
      | false =>
          rw [hb] at h
          simp only [Bool.false_eq_true, if_false] at h
          obtain ⟨e, he, hv⟩ := ih h
          exact ⟨e, List.mem_cons_of_mem _ he, hv⟩

/-- The executable check implies room well-formedness. -/
theorem roomWF_of_b (room : Room) (h : roomWFb room = true) : roomWF room := by
  unfold roomWFb at h
  rw [Bool.and_eq_true] at h
  constructor
  · intro hc
    rw [hc] at h
    simp at h
  · simpa using h.2

/-- The executable check implies registry well-formedness. -/
theorem regWF_of_b (rooms : RoomMap) (h : regWFb rooms = true) : regWF rooms := by
  intro rid room hr
  obtain ⟨e, he, hv⟩ := regGet_mem rooms rid room hr
  unfold regWFb at h
  rw [List.all_eq_true] at h
  exact hv ▸ roomWF_of_b e.2 (h e he)

/-- `reassignRoomOwner` keeps the player list and, for a non-empty room whose
previous owner was either the departing connection or still a member, makes
the resulting owner a member. -/
theorem reassignRoomOwner_WF (roomId : RoomId) (room : Room) (cid : PlayerId)
    (hne : room.players ≠ [])
    (hprev : room.owner = cid ∨ (alGet room.players room.owner).isSome) :
    (reassignRoomOwner roomId room cid).1.players = room.players ∧
    (alGet room.players (reassignRoomOwner roomId room cid).1.owner).isSome := by
  have hie : room.players.isEmpty = false := by
    cases hpl : room.players with
    | nil => exact absurd hpl hne
    | cons b bt => rfl
  unfold reassignRoomOwner
  by_cases ho : (room.owner == cid) = true
  · have hg : (room.owner == cid && !room.players.isEmpty) = true := by
      rw [ho, hie]
      rfl
    rw [if_pos hg]
    cases hf : room.players.find? (fun e => !e.2.isSpectator) with
    | some e =>
        simp only [hf]
        exact ⟨trivial, alGet_isSome_of_mem _ _ (List.mem_of_find?_eq_some hf)⟩
    | none =>
        simp only [hf]
        cases hpl : room.players with
        | nil => exact absurd hpl hne
        | cons b bt =>
            simp only [hpl, List.head?_cons, Option.map_some']
            refine ⟨trivial, ?_⟩
            exact alGet_isSome_of_mem _ _ (List.mem_cons_self b bt)
  · have hg : (room.owner == cid && !room.players.isEmpty) = false := by
      rw [Bool.and_eq_false_iff]
      left
      simpa using ho
    rw [if_neg (by rw [hg]; exact Bool.false_ne_true)]
    refine ⟨rfl, ?_⟩
    rcases hprev with h1 | h2
    · exact absurd (by rw [h1]; exact beq_self_eq_true cid) ho
    · exact h2

/-- `reassignRoomOwner` is a no-op on a room with no players. -/
theorem reassignRoomOwner_empty (roomId : RoomId) (room : Room) (cid : PlayerId)
    (h : room.players.isEmpty = true) :
    reassignRoomOwner roomId room cid = (room, false, []) := by
  unfold reassignRoomOwner
  have hg : (room.owner == cid && !room.players.isEmpty) = false := by
    rw [h]
    simp
  rw [if_neg (by rw [hg]; exact Bool.false_ne_true)]

/-- Removing a member from a registered room preserves registry
well-formedness: the room is destroyed when it empties, and otherwise keeps a
member owner (after reassignment if the owner left). -/
theorem removeFromRoom_WF (rooms : RoomMap) (rid : RoomId) (room : Room)
    (sid : PlayerId) (hwf : regWF rooms) (hr : regGet rooms rid = some room) :
    regWF (removeFromRoom rooms rid room sid).1 := by
  obtain ⟨hne0, hmem0⟩ := hwf rid room hr
  simp only [removeFromRoom]
  by_cases hemp : alDelete room.players sid = []
  · have h1 : ({ room with players := alDelete room.players sid } : Room).players.isEmpty = true := by
      simp [hemp]
    rw [reassignRoomOwner_empty rid _ sid h1]
    simp only [h1, if_pos]
    intro rid' room' h'
    by_cases hrid : rid' = rid
    · subst hrid
      rw [regGet_regDelete_self] at h'
      cases h'
    · rw [regGet_regDelete_ne rooms rid rid' hrid] at h'
      exact hwf rid' room' h'
  · have hne1 : ({ room with players := alDelete room.players sid } : Room).players ≠ [] := hemp
    have hprev : ({ room with players := alDelete room.players sid } : Room).owner = sid ∨
        (alGet ({ room with players := alDelete room.players sid } : Room).players
          ({ room with players := alDelete room.players sid } : Room).owner).isSome := by
      by_cases how : room.owner = sid
      · exact Or.inl how
      · right
        show (alGet (alDelete room.players sid) room.owner).isSome
        rw [alGet_alDelete_ne _ _ _ how]
        exact hmem0
    obtain ⟨hpl2, hown2⟩ :=
      reassignRoomOwner_WF rid { room with players := alDelete room.players sid } sid hne1 hprev
    rcases hre : reassignRoomOwner rid { room with players := alDelete room.players sid } sid
      with ⟨room2, did2, evs2⟩
    rw [hre] at hpl2 hown2
    simp only at hpl2 hown2
    simp only [hre]
    have hie2 : room2.players.isEmpty = false := by
      rw [hpl2]
      cases hd : alDelete room.players sid with
      | nil => exact absurd hd hemp
      | cons b bt => rfl
    rw [if_neg (by rw [hie2]; exact Bool.false_ne_true)]
    intro rid' room' h'
    by_cases hrid : rid' = rid
    · subst hrid
      rw [regGet_regSet_self] at h'
      have h2 := Option.some.inj h'
      subst h2
      constructor
      · rw [hpl2]
        exact hemp
      · rw [hpl2]
        exact hown2
    · rw [regGet_regSet_ne rooms rid rid' room2 hrid] at h'
      exact hwf rid' room' h'

/-- `leave-room` preserves registry well-formedness. -/
theorem leaveRoom_WF (rooms : RoomMap) (rid : RoomId) (sid : PlayerId)
    (hwf : regWF rooms) : regWF (leaveRoom rooms rid sid).1 := by
  unfold leaveRoom
  cases hg : regGet rooms rid with
  | none =>
      simp only [hg]
      exact hwf
  | some room =>
      simp only [hg]
      by_cases hmem : (alGet room.players sid).isSome = true
      · rw [if_pos hmem]
        rcases hrm : removeFromRoom rooms rid room sid with ⟨rooms', evs⟩
        simp only [hrm]
        have h1 := removeFromRoom_WF rooms rid room sid hwf hg
        rw [hrm] at h1
        exact h1
      · rw [if_neg hmem]
        exact hwf

/-- `disconnect` preserves registry well-formedness. -/
theorem disconnectHandler_WF (rooms : RoomMap) (active : Option RoomId)
    (sid : PlayerId) (hwf : regWF rooms) :
    regWF (disconnectHandler rooms active sid).1 := by
  unfold disconnectHandler
  cases active with
  | none => exact hwf
  | some rid =>
      cases hg : regGet rooms rid with
      | none =>
          simp only [hg]
          exact hwf
      | some room =>
          simp only [hg]
          exact removeFromRoom_WF rooms rid room sid hwf hg

/-- The implicit leave inside `join-room` preserves registry
well-formedness. -/
theorem joinRoomLeavePrev_WF (rooms : RoomMap) (active : Option RoomId)
    (rid : RoomId) (sid : PlayerId) (hwf : regWF rooms) :
    regWF (joinRoomLeavePrev rooms active rid sid).1 := by
  unfold joinRoomLeavePrev
  cases active with
  | none => exact hwf
  | some prev =>
      dsimp only
      by_cases hne : (prev != rid) = true
      · rw [if_pos hne]
        cases hg : regGet rooms prev with
        | none =>
            simp only [hg]
            exact hwf
        | some room =>
            simp only [hg]
            by_cases hmem : (alGet room.players sid).isSome = true
            · rw [if_pos hmem]
              rcases hrm : removeFromRoom rooms prev room sid with ⟨rooms', evs⟩
              simp only [hrm]
              have h1 := removeFromRoom_WF rooms prev room sid hwf hg
              rw [hrm] at h1
              exact h1
            · rw [if_neg hmem]
              exact hwf
      · rw [if_neg hne]
        exact hwf

/-- The create-or-insert half of `join-room` preserves registry
well-formedness: a created room is owned by its sole member, and inserting a
player leaves the owner a member. -/
theorem joinRoomInsert_WF (rooms : RoomMap) (rid : RoomId) (sid : PlayerId)
    (name : String) (hwf : regWF rooms) :
    regWF (joinRoomInsert rooms rid sid name).1 := by
  simp only [joinRoomInsert]
  cases hg : regGet rooms rid with
  | none =>
      simp only [hg]
      intro rid' room' h'
      by_cases hrid : rid' = rid
      · subst hrid
        rw [regGet_regSet_self] at h'
        have h2 := Option.some.inj h'
        subst h2
        constructor
        · dsimp only
          exact alSet_ne_nil _ _ _
        · dsimp only
          rw [alGet_alSet_self]
          rfl
      · rw [regGet_regSet_ne _ _ _ _ hrid, regGet_regSet_ne _ _ _ _ hrid] at h'
        exact hwf rid' room' h'
  | some room =>
      obtain ⟨hne0, hmem0⟩ := hwf rid room hg
      simp only [hg]
      cases hga : alGet room.players sid with
      | some existing =>
          simp only [hga]
          intro rid' room' h'
          by_cases hrid : rid' = rid
          · subst hrid
            rw [regGet_regSet_self] at h'
            have h2 := Option.some.inj h'
            subst h2
            constructor
            · dsimp only
              exact alSet_ne_nil _ _ _
            · dsimp only
              by_cases how : room.owner = sid
              · rw [how, alGet_alSet_self]
                rfl
              · rw [alGet_alSet_ne _ _ _ _ how, alGet_alSet_ne _ _ _ _ how]
                exact hmem0
          · rw [regGet_regSet_ne _ _ _ _ hrid, regGet_regSet_ne _ _ _ _ hrid] at h'
            exact hwf rid' room' h'
      | none =>
          simp only [hga]
          intro rid' room' h'
          by_cases hrid : rid' = rid
          · subst hrid
            rw [regGet_regSet_self] at h'
            have h2 := Option.some.inj h'
            subst h2
            constructor
            · dsimp only
              exact alSet_ne_nil _ _ _
            · dsimp only
              by_cases how : room.owner = sid
              · rw [how, alGet_alSet_self]
                rfl
              · rw [alGet_alSet_ne _ _ _ _ how]
                exact hmem0
          · rw [regGet_regSet_ne _ _ _ _ hrid, regGet_regSet_ne _ _ _ _ hrid] at h'
            exact hwf rid' room' h'

/-- `join-room` preserves registry well-formedness. -/
theorem joinRoom_WF (rooms : RoomMap) (active : Option RoomId) (rid : RoomId)
    (sid : PlayerId) (pname : String) (hwf : regWF rooms) :
    regWF (joinRoom rooms active rid sid pname).1 := by
  have h1 := joinRoomLeavePrev_WF rooms active rid sid hwf
  have h2 := joinRoomInsert_WF (joinRoomLeavePrev rooms active rid sid).1 rid sid
    (if pname.isEmpty then "Player " ++ toString sid else pname) h1
  unfold joinRoom
  rcases hlp : joinRoomLeavePrev rooms active rid sid with ⟨rooms1, evs0⟩
  rcases hji : joinRoomInsert rooms1 rid sid
      (if pname.isEmpty then "Player " ++ toString sid else pname)
    with ⟨rooms2, reply, evs1⟩
  simp only [hlp, hji]
  rw [hlp] at h2
  simp only at h2
  rw [hji] at h2
  exact h2

/-- Removing the last member of a room destroys the room. -/
theorem removeFromRoom_empty (rooms : RoomMap) (rid : RoomId) (room : Room)
    (sid : PlayerId) (hdel : alDelete room.players sid = []) :
    (removeFromRoom rooms rid room sid).1 = regDelete rooms rid := by
  simp only [removeFromRoom]
  have h1 : ({ room with players := alDelete room.players sid } : Room).players.isEmpty = true := by
    simp [hdel]
  rw [reassignRoomOwner_empty rid _ sid h1]
  simp only [h1, if_pos]

/-- C7: after `join-room`, `leave-room` and `disconnect` every registered room
keeps an owner who is a current member, and when the owner leaves a non-empty
room, `reassignRoomOwner` picks the earliest-joined remaining non-spectator
(the first `find?` hit in insertion order) or, if none exists, the
earliest-joined remaining player (the list head). -/
theorem C7_owner_invariant (rooms : RoomMap) (active : Option RoomId)
    (rid : RoomId) (sid : PlayerId) (pname : String) (room : Room)
    (cid : PlayerId) (e : PlayerId × GamePlayer)
    (hwf : regWF rooms) :
    regWF (joinRoom rooms active rid sid pname).1 ∧
    regWF (leaveRoom rooms rid sid).1 ∧
    regWF (disconnectHandler rooms active sid).1 ∧
    (room.owner = cid → room.players ≠ [] →
      (room.players.find? (fun x => !x.2.isSpectator) = some e →
        (reassignRoomOwner rid room cid).1.owner = e.1) ∧
      (room.players.find? (fun x => !x.2.isSpectator) = none →
        room.players.head? = some e →
        (reassignRoomOwner rid room cid).1.owner = e.1)) := by
  refine ⟨joinRoom_WF _ _ _ _ _ hwf, leaveRoom_WF _ _ _ hwf,
    disconnectHandler_WF _ _ _ hwf, ?_⟩
  intro how hne
  have hie : room.players.isEmpty = false := by
    cases hpl : room.players with
    | nil => exact absurd hpl hne
    | cons b bt => rfl
  have hg : (room.owner == cid && !room.players.isEmpty) = true := by
    rw [how, hie]
    simp
  constructor
  · intro hf
    unfold reassignRoomOwner
    rw [if_pos hg]
    simp [hf]
  · intro hf hh
    unfold reassignRoomOwner
    rw [if_pos hg]
    simp [hf, hh]

/-- C7 witness: the three handlers applied to the well-formed `regC9`, and the
reassignment policy evaluated on `roomC6` whose owner 1 departs: the earliest
non-spectator (player 1's entry is found first) becomes owner. -/
theorem C7_owner_invariant_witness :
    regWF (joinRoom regC9 none "A" 1 "x").1 ∧
    regWF (leaveRoom regC9 "A" 1).1 ∧
    regWF (disconnectHandler regC9 none 1).1 ∧
    (roomC6.owner = 1 → roomC6.players ≠ [] →
      (roomC6.players.find? (fun x => !x.2.isSpectator) =
          some (1, { id := 1, name := "a", lives := 2, isSpectator := false }) →
        (reassignRoomOwner "A" roomC6 1).1.owner = 1) ∧
      (roomC6.players.find? (fun x => !x.2.isSpectator) = none →
        roomC6.players.head? =
          some (1, { id := 1, name := "a", lives := 2, isSpectator := false }) →
        (reassignRoomOwner "A" roomC6 1).1.owner = 1)) :=
  C7_owner_invariant regC9 none "A" 1 "x" roomC6 1
    (1, { id := 1, name := "a", lives := 2, isSpectator := false })
    (regWF_of_b regC9 (by decide))

/-- C9: after `join-room`, `leave-room` and `disconnect` every room still in
the registry has at least one player, and removing a room's last player
(explicit leave or disconnect) destroys the room immediately. -/
theorem C9_room_lifetime (rooms : RoomMap) (active : Option RoomId)
    (rid : RoomId) (sid : PlayerId) (pname : String) (room : Room) (p : GamePlayer)
    (hwf : regWF rooms) :
    (∀ rid' room', regGet (joinRoom rooms active rid sid pname).1 rid' = some room' →
      room'.players ≠ []) ∧
    (∀ rid' room', regGet (leaveRoom rooms rid sid).1 rid' = some room' →
      room'.players ≠ []) ∧
    (∀ rid' room', regGet (disconnectHandler rooms active sid).1 rid' = some room' →
      room'.players ≠ []) ∧
    (regGet rooms rid = some room → room.players = [(sid, p)] →
      regGet (leaveRoom rooms rid sid).1 rid = none ∧
      regGet (disconnectHandler rooms (some rid) sid).1 rid = none) := by
  refine ⟨?_, ?_, ?_, ?_⟩
  · intro rid' room' h'
    exact (joinRoom_WF rooms active rid sid pname hwf rid' room' h').1
  · intro rid' room' h'
    exact (leaveRoom_WF rooms rid sid hwf rid' room' h').1
  · intro rid' room' h'
    exact (disconnectHandler_WF rooms active sid hwf rid' room' h').1
  · intro hr hpl
    have hdel : alDelete room.players sid = [] := by
      rw [hpl]
      simp [alDelete]
    have hmem : (alGet room.players sid).isSome = true := by
      rw [hpl]
      simp [alGet]
    constructor
    · unfold leaveRoom
      simp only [hr]
      rw [if_pos hmem]
      rcases hrm : removeFromRoom rooms rid room sid with ⟨rooms', evs⟩
      simp only [hrm]
      have h1 := removeFromRoom_empty rooms rid room sid hdel
      rw [hrm] at h1
      simp only at h1
      rw [h1]
      exact regGet_regDelete_self rooms rid
    · unfold disconnectHandler
      simp only [hr]
      rcases hrm : removeFromRoom rooms rid room sid with ⟨rooms', evs⟩
      simp only [hrm]
      have h1 := removeFromRoom_empty rooms rid room sid hdel
      rw [hrm] at h1
      simp only at h1
      rw [h1]
      exact regGet_regDelete_self rooms rid

/-- C9 witness: in `regC9` room A holds only player 1; after that player
leaves or disconnects, room A is gone, and all three handlers leave only
non-empty rooms registered. -/
theorem C9_room_lifetime_witness :
    (∀ rid' room', regGet (joinRoom regC9 none "A" 1 "x").1 rid' = some room' →
      room'.players ≠ []) ∧
    (∀ rid' room', regGet (leaveRoom regC9 "A" 1).1 rid' = some room' →
      room'.players ≠ []) ∧
    (∀ rid' room', regGet (disconnectHandler regC9 none 1).1 rid' = some room' →
      room'.players ≠ []) ∧
    (regGet regC9 "A" = some roomC9 →
      roomC9.players = [(1, { id := 1, name := "a", lives := 2, isSpectator := false })] →
      regGet (leaveRoom regC9 "A" 1).1 "A" = none ∧
      regGet (disconnectHandler regC9 (some "A") 1).1 "A" = none) :=
  C9_room_lifetime regC9 none "A" 1 "x" roomC9
    { id := 1, name := "a", lives := 2, isSpectator := false }
    (regWF_of_b regC9 (by decide))
